import Mathlib

/-!
Shallow embedding of the `go-circuit-breaker` package (`src/breaker.go`).

The Go code wraps a fallible operation `func() (interface{}, error)` in a
circuit-breaker state machine.  We model:

* `interface{}` results as `Option V` (Go `nil` is `none`);
* `error` values as `Option String` carrying the message built by
  `errors.New` / `fmt.Sprintf` (Go `nil` error is `none`);
* the operation as `f : Nat → Outcome V`, indexed by how many times it has
  been invoked so far, so that a second invocation of `f` is observable
  (the Go `Execute` reaches the trailing `return f()` on the Closed
  success path, invoking the operation twice); every function that may
  invoke the operation threads an invocation counter `k` and returns the
  updated counter;
* `fmt.Printf("ALERT: %v", message)` as appending the formatted string to
  an `alerts` list in the result;
* `go c.recover(f)` as a `probeStarted` flag in the result of `Execute`;
  the probe loop itself (`recover`) is modelled as a sequential function,
  the loop body taken verbatim from the source (`time.Sleep` has no
  observable effect in the sequential model and is elided).

Go `int` fields are modelled as `Int`; no claim involves counts anywhere
near the overflow range, so no wrap-around modelling is needed.
-/

namespace GoCircuitBreaker

/-- Go: `type State int` with `Closed State = 1`, `HalfOpen State = 2`,
`Open State = 3`. -/
inductive State where
  | Closed
  | HalfOpen
  | Open
deriving DecidableEq, Repr

/-- Go: `const defaultErrorThreshold = 5`. -/
def defaultErrorThreshold : Int := 5

/-- Go: `const defaultRetryInterval = 5`. -/
def defaultRetryInterval : Int := 5

/-- Go: `const defaultRetryMax = 5`. -/
def defaultRetryMax : Int := 5

/-- Go: `type Strategy struct { Threshold, RetryInterval, RetryMax int }`. -/
structure Strategy where
  Threshold : Int
  RetryInterval : Int
  RetryMax : Int
deriving DecidableEq, Repr

/-- Go: `type circuitBreaker struct { name string; strategy *Strategy;
state State; consecutiveErrors int }`. -/
structure circuitBreaker where
  name : String
  strategy : Strategy
  state : State
  consecutiveErrors : Int
deriving DecidableEq, Repr

/-- One return of the wrapped Go operation `func() (interface{}, error)`:
a result (`nil` = `none`) and an error (`nil` = `none`, otherwise the
message). -/
structure Outcome (V : Type) where
  res : Option V
  err : Option String
deriving DecidableEq, Repr

/-- Go: `func (c *circuitBreaker) GetName() string`. -/
def circuitBreaker.GetName (c : circuitBreaker) : String :=
  c.name

/-- Go: `func (c *circuitBreaker) GetState() State`. -/
def circuitBreaker.GetState (c : circuitBreaker) : State :=
  c.state

/-- Go: `func NewCircuitBreaker(name string, strategy *Strategy) CircuitBreaker`.
Each field `≤ 0` is replaced by its default before the breaker is built;
the breaker starts `Closed` with `consecutiveErrors = 0`. -/
def NewCircuitBreaker (name : String) (strategy : Strategy) : circuitBreaker :=
  let strategy :=
    if strategy.Threshold ≤ 0 then
      { strategy with Threshold := defaultErrorThreshold } else strategy
  let strategy :=
    if strategy.RetryMax ≤ 0 then
      { strategy with RetryMax := defaultRetryMax } else strategy
  let strategy :=
    if strategy.RetryInterval ≤ 0 then
      { strategy with RetryInterval := defaultRetryInterval } else strategy
  { name := name
    strategy := strategy
    state := State.Closed
    consecutiveErrors := 0 }

/-- Go: `func (c *circuitBreaker) handleSuccess()` —
`c.consecutiveErrors = 0`. -/
def handleSuccess (c : circuitBreaker) : circuitBreaker :=
  { c with consecutiveErrors := 0 }

/-- Go: `func (c *circuitBreaker) handleError(f ...)` —
`c.consecutiveErrors++`; if the counter now exceeds the threshold, set
`state = HalfOpen` and spawn `go c.recover(f)`.  The returned `Bool`
records whether the probe goroutine was spawned. -/
def handleError (c : circuitBreaker) : circuitBreaker × Bool :=
  let c := { c with consecutiveErrors := c.consecutiveErrors + 1 }
  if c.consecutiveErrors > c.strategy.Threshold then
    ({ c with state := State.HalfOpen }, true)
  else
    (c, false)

/-- Everything `Execute` produces: the returned `(result, error)` pair,
the updated breaker, the updated operation-invocation counter, whether a
recovery probe was spawned, and the `ALERT` lines printed. -/
structure ExecResult (V : Type) where
  res : Option V
  err : Option String
  cb : circuitBreaker
  calls : Nat
  probeStarted : Bool
  alerts : List String
deriving DecidableEq, Repr

/-- Go: `func (c *circuitBreaker) Execute(f ...) (interface{}, error)`.

`k` is the number of prior invocations of `f`; invocation number `k`
returns `f k`.  Mirrors the Go `switch c.state`:

* `Closed`: `res, err := f()`; on `err != nil` run `handleError` and
  return `res, err`; otherwise run `handleSuccess` and fall through the
  `switch` to the trailing `return f()` — the operation is invoked a
  second time and that second pair is what the caller receives;
* `HalfOpen`: return `nil, errors.New("circuit half open. trying to recover")`;
* `Open`: build `message := fmt.Sprintf("%v circuit breaker open", c.name)`,
  print `ALERT: message`, return `nil, errors.New(message)`. -/
def Execute {V : Type} (c : circuitBreaker) (f : Nat → Outcome V) (k : Nat) :
    ExecResult V :=
  match c.state with
  | State.Closed =>
      let o := f k
      if o.err ≠ none then
        let r := handleError c
        { res := o.res, err := o.err, cb := r.1, calls := k + 1
          probeStarted := r.2, alerts := [] }
      else
        let c2 := handleSuccess c
        let o2 := f (k + 1)
        { res := o2.res, err := o2.err, cb := c2, calls := k + 2
          probeStarted := false, alerts := [] }
  | State.HalfOpen =>
      { res := none, err := some "circuit half open. trying to recover"
        cb := c, calls := k, probeStarted := false, alerts := [] }
  | State.Open =>
      let message := c.name ++ " circuit breaker open"
      { res := none, err := some message, cb := c, calls := k
        probeStarted := false, alerts := ["ALERT: " ++ message] }

/-- The loop body of Go `func (c *circuitBreaker) recover(f ...)`, run
sequentially: `for c.state == HalfOpen { if retries > c.strategy.RetryMax
{ c.state = Open; return }; time.Sleep(...); _, err := f(); if err == nil
{ c.state = Closed }; retries++ }`.  Only `state` and the local `retries`
change in the loop; the immutable `RetryMax` is passed separately.
Returns the final state and invocation counter. -/
def recoverLoop {V : Type} (retryMax : Int) (f : Nat → Outcome V)
    (st : State) (k retries : Nat) : State × Nat :=
  if st = State.HalfOpen then
    if (retries : Int) > retryMax then
      (State.Open, k)
    else
      let o := f k
      let st2 := if o.err = none then State.Closed else st
      recoverLoop retryMax f st2 (k + 1) (retries + 1)
  else
    (st, k)
termination_by (retryMax + 1).toNat - retries
decreasing_by
  simp only [not_lt] at *
  omega

/-- Go: `func (c *circuitBreaker) recover(f ...)` with `retries := 0`. -/
def recover {V : Type} (c : circuitBreaker) (f : Nat → Outcome V) (k : Nat) :
    circuitBreaker × Nat :=
  let r := recoverLoop c.strategy.RetryMax f c.state k 0
  ({ c with state := r.1 }, r.2)

/-- Run `n` successive `Execute` calls against the same invocation-indexed
operation, threading the breaker and the invocation counter through. -/
def runCalls {V : Type} (c : circuitBreaker) (f : Nat → Outcome V) (k : Nat) :
    Nat → circuitBreaker × Nat
  | 0 => (c, k)
  | n + 1 =>
      let r := Execute c f k
      runCalls r.cb f r.calls n

/-- Run one `Execute` call per operation in the list, each operation with
its own invocation counter starting at 0, keeping only the breaker. -/
def runOps {V : Type} (c : circuitBreaker) : List (Nat → Outcome V) → circuitBreaker
  | [] => c
  | f :: rest => runOps (Execute c f 0).cb rest

/-- `runBounded T cur l = true` iff, starting from a current run of `cur`
consecutive failures, the failure/success trace `l` (`true` = the call
fails) never accumulates a run of more than `T` consecutive failures. -/
def runBounded (T : Nat) : Nat → List Bool → Bool
  | _, [] => true
  | cur, b :: l =>
      if b then decide (cur + 1 ≤ T) && runBounded T (cur + 1) l
      else runBounded T 0 l

/-- An operation that fails on every invocation (as in the repository
test suite). -/
def failOp : Nat → Outcome String :=
  fun _ => { res := none, err := some "i like to fail" }

/-- An operation that succeeds on every invocation. -/
def succOp : Nat → Outcome String :=
  fun _ => { res := some "yay", err := none }

/-- An operation that succeeds on its first invocation and fails on every
later one. -/
def succThenFail : Nat → Outcome String :=
  fun j => if j = 0 then { res := some "a", err := none }
           else { res := none, err := some "boom" }

/-- A fresh breaker with threshold 1 (all strategy fields positive, so no
defaults fire). -/
def cbFresh : circuitBreaker :=
  NewCircuitBreaker "test" { Threshold := 1, RetryInterval := 1, RetryMax := 1 }

/-- A fresh breaker with the strategy used by the repository tests. -/
def cbT2 : circuitBreaker :=
  NewCircuitBreaker "test" { Threshold := 2, RetryInterval := 1, RetryMax := 5 }

/-- The threshold-1 breaker after one failing call. -/
def cbAfterOneFailure : circuitBreaker :=
  { name := "test"
    strategy := { Threshold := 1, RetryInterval := 1, RetryMax := 1 }
    state := State.Closed
    consecutiveErrors := 1 }

/-- A breaker caught in the `HalfOpen` state. -/
def halfOpenCB : circuitBreaker :=
  { name := "test"
    strategy := { Threshold := 2, RetryInterval := 1, RetryMax := 5 }
    state := State.HalfOpen
    consecutiveErrors := 3 }

/-- A breaker caught in the `Open` state. -/
def openCB : circuitBreaker :=
  { name := "test"
    strategy := { Threshold := 2, RetryInterval := 1, RetryMax := 5 }
    state := State.Open
    consecutiveErrors := 3 }

/-- Claim C4: in state `HalfOpen`, `Execute` does not invoke the operation
(the invocation counter stays at `k`) and returns a `nil` result with the
sentinel error `"circuit half open. trying to recover"`; the breaker is
untouched. -/
theorem halfOpen_execute_rejects {V : Type} (c : circuitBreaker)
    (f : Nat → Outcome V) (k : Nat) (h : c.state = State.HalfOpen) :
    Execute c f k =
      { res := none, err := some "circuit half open. trying to recover"
        cb := c, calls := k, probeStarted := false, alerts := [] } := by
  simp [Execute, h]

/-- Witness for C4 at a concrete half-open breaker. -/
theorem halfOpen_execute_rejects_witness :
    Execute halfOpenCB failOp 0 =
      { res := none, err := some "circuit half open. trying to recover"
        cb := halfOpenCB, calls := 0, probeStarted := false, alerts := [] } :=
  halfOpen_execute_rejects halfOpenCB failOp 0 rfl

/-- Claim C5: in state `Open`, `Execute` does not invoke the operation and
returns a `nil` result with the error message `"<name> circuit breaker
open"`; the same message (tagged with the `ALERT:` level prefix of the
`fmt.Printf` format string) is emitted to the alert sink. -/
theorem open_execute_alerts {V : Type} (c : circuitBreaker)
    (f : Nat → Outcome V) (k : Nat) (h : c.state = State.Open) :
    Execute c f k =
      { res := none, err := some (c.name ++ " circuit breaker open")
        cb := c, calls := k, probeStarted := false
        alerts := ["ALERT: " ++ (c.name ++ " circuit breaker open")] } := by
  simp [Execute, h]

/-- Witness for C5 at a concrete open breaker named `"test"`. -/
theorem open_execute_alerts_witness :
    Execute openCB failOp 0 =
      { res := none, err := some "test circuit breaker open"
        cb := openCB, calls := 0, probeStarted := false
        alerts := ["ALERT: test circuit breaker open"] } :=
  open_execute_alerts openCB failOp 0 rfl

/-- Claim C10: in state `HalfOpen` or `Open`, `Execute` leaves every field
of the breaker unchanged, invokes the operation zero times, and returns a
`nil` result. -/
theorem halfOpen_open_execute_frame {V : Type} (c : circuitBreaker)
    (f : Nat → Outcome V) (k : Nat)
    (h : c.state = State.HalfOpen ∨ c.state = State.Open) :
    (Execute c f k).cb = c ∧ (Execute c f k).res = none ∧
    (Execute c f k).calls = k := by
  rcases h with h | h <;> simp [Execute, h]

/-- Witness for C10 at a concrete half-open breaker. -/
theorem halfOpen_open_execute_frame_witness :
    (Execute halfOpenCB failOp 5).cb = halfOpenCB ∧
    (Execute halfOpenCB failOp 5).res = none ∧
    (Execute halfOpenCB failOp 5).calls = 5 :=
  halfOpen_open_execute_frame halfOpenCB failOp 5 (Or.inl rfl)

/-- Claim C1, behaviour of the code at the failing input: from a fresh
breaker, with an operation whose first invocation succeeds (`err = none`)
and whose second invocation fails with `"boom"`, `Execute` resets
`consecutiveErrors` to 0 but invokes the operation a second time (the
Closed success path falls through the Go `switch` to the trailing
`return f()`) and hands the caller the second invocation, here a `nil`
result with a non-nil error — not the successful first result with a nil
error. -/
theorem execute_closed_success_invokes_twice :
    (succThenFail 0).err = none ∧
    Execute cbFresh succThenFail 0 =
      { res := none, err := some "boom"
        cb := { cbFresh with consecutiveErrors := 0 }, calls := 2
        probeStarted := false, alerts := [] } :=
  ⟨rfl, rfl⟩

/-- Claim C2, counterexample: with threshold `T = 1`, two consecutive
failing calls from a fresh breaker move the state to `HalfOpen`, but the
second call — the `(T+1)`-th, which caused the transition — returns the
underlying operation error `"i like to fail"`, not the `RecoveringError`. -/
theorem transition_call_error_cex :
    (Execute (Execute cbFresh failOp 0).cb failOp 1).cb.state = State.HalfOpen ∧
    (Execute (Execute cbFresh failOp 0).cb failOp 1).err = some "i like to fail" ∧
    (Execute (Execute cbFresh failOp 0).cb failOp 1).err ≠
      some "circuit half open. trying to recover" := by
  refine ⟨rfl, rfl, ?_⟩
  decide

/-- Claim C3: in state `Closed`, when the (first) invocation of the
operation fails, `Execute` increments `consecutiveErrors` by exactly 1,
returns that invocation result and error unchanged (one invocation only:
the counter moves from `k` to `k + 1`), keeps `name` and `strategy`
intact, and — exactly when the new counter exceeds the threshold — moves
the state to `HalfOpen` and spawns the recovery probe; otherwise the
state stays `Closed` and no probe is spawned. -/
theorem closed_failure_increments {V : Type} (c : circuitBreaker)
    (f : Nat → Outcome V) (k : Nat) (m : String)
    (hc : c.state = State.Closed) (hf : (f k).err = some m) :
    (Execute c f k).cb.consecutiveErrors = c.consecutiveErrors + 1 ∧
    (Execute c f k).res = (f k).res ∧
    (Execute c f k).err = some m ∧
    (Execute c f k).calls = k + 1 ∧
    (Execute c f k).cb.name = c.name ∧
    (Execute c f k).cb.strategy = c.strategy ∧
    (c.consecutiveErrors + 1 > c.strategy.Threshold →
      (Execute c f k).cb.state = State.HalfOpen ∧
      (Execute c f k).probeStarted = true) ∧
    (¬ c.consecutiveErrors + 1 > c.strategy.Threshold →
      (Execute c f k).cb.state = c.state ∧
      (Execute c f k).probeStarted = false) := by
  simp only [Execute, hc, hf, ne_eq, reduceCtorEq, not_false_eq_true, if_true,
    handleError]
  split_ifs with h <;> simp_all

/-- Witness for C3: a first failing call on a fresh threshold-2 breaker
stays `Closed` with `consecutiveErrors = 1`. -/
theorem closed_failure_increments_witness :
    (Execute cbT2 failOp 0).cb.consecutiveErrors = 0 + 1 ∧
    (Execute cbT2 failOp 0).err = some "i like to fail" ∧
    (Execute cbT2 failOp 0).calls = 0 + 1 ∧
    (Execute cbT2 failOp 0).cb.state = cbT2.state ∧
    (Execute cbT2 failOp 0).probeStarted = false := by
  have h := closed_failure_increments cbT2 failOp 0 "i like to fail" rfl rfl
  exact ⟨h.1, h.2.2.1, h.2.2.2.1, (h.2.2.2.2.2.2.2 (by decide)).1,
    (h.2.2.2.2.2.2.2 (by decide)).2⟩

/-- Claim C8: `NewCircuitBreaker` returns a breaker in state `Closed`
with `consecutiveErrors = 0` and the given name; every strategy field
that is `≤ 0` is replaced by its default of 5 (seconds, for
`RetryInterval`), and every positive field is kept unchanged. -/
theorem newCircuitBreaker_initial_state_and_defaults (name : String)
    (s : Strategy) :
    (NewCircuitBreaker name s).state = State.Closed ∧
    (NewCircuitBreaker name s).consecutiveErrors = 0 ∧
    (NewCircuitBreaker name s).name = name ∧
    (s.Threshold ≤ 0 → (NewCircuitBreaker name s).strategy.Threshold = 5) ∧
    (0 < s.Threshold →
      (NewCircuitBreaker name s).strategy.Threshold = s.Threshold) ∧
    (s.RetryInterval ≤ 0 →
      (NewCircuitBreaker name s).strategy.RetryInterval = 5) ∧
    (0 < s.RetryInterval →
      (NewCircuitBreaker name s).strategy.RetryInterval = s.RetryInterval) ∧
    (s.RetryMax ≤ 0 → (NewCircuitBreaker name s).strategy.RetryMax = 5) ∧
    (0 < s.RetryMax →
      (NewCircuitBreaker name s).strategy.RetryMax = s.RetryMax) := by
  obtain ⟨t, ri, rm⟩ := s
  simp only [NewCircuitBreaker, defaultErrorThreshold, defaultRetryInterval,
    defaultRetryMax]
  split_ifs <;> simp_all

/-- Witness for C8: one all-defaulted strategy and one fully positive
strategy. -/
theorem newCircuitBreaker_initial_state_and_defaults_witness :
    (NewCircuitBreaker "a" { Threshold := 0, RetryInterval := -1, RetryMax := 0 }).state
        = State.Closed ∧
    (NewCircuitBreaker "a" { Threshold := 0, RetryInterval := -1, RetryMax := 0 }).strategy.Threshold
        = 5 ∧
    (NewCircuitBreaker "a" { Threshold := 0, RetryInterval := -1, RetryMax := 0 }).strategy.RetryInterval
        = 5 ∧
    (NewCircuitBreaker "a" { Threshold := 0, RetryInterval := -1, RetryMax := 0 }).strategy.RetryMax
        = 5 ∧
    (NewCircuitBreaker "b" { Threshold := 3, RetryInterval := 4, RetryMax := 6 }).strategy.Threshold
        = 3 ∧
    (NewCircuitBreaker "b" { Threshold := 3, RetryInterval := 4, RetryMax := 6 }).strategy.RetryInterval
        = 4 ∧
    (NewCircuitBreaker "b" { Threshold := 3, RetryInterval := 4, RetryMax := 6 }).strategy.RetryMax
        = 6 := by
  have ha := newCircuitBreaker_initial_state_and_defaults "a"
    { Threshold := 0, RetryInterval := -1, RetryMax := 0 }
  have hb := newCircuitBreaker_initial_state_and_defaults "b"
    { Threshold := 3, RetryInterval := 4, RetryMax := 6 }
  exact ⟨ha.1, ha.2.2.2.1 (by decide), ha.2.2.2.2.2.1 (by decide),
    ha.2.2.2.2.2.2.2.1 (by decide), hb.2.2.2.2.1 (by decide),
    hb.2.2.2.2.2.2.1 (by decide), hb.2.2.2.2.2.2.2.2 (by decide)⟩

/-- Claim C9: the `Open` state is terminal: from a breaker whose state is
`Open`, `Execute` leaves the breaker unchanged (in every branch it can
reach), a full run of the recovery probe returns immediately without
touching the state, and a probe loop iteration at any `retries` value
observes the exited guard and changes nothing. -/
theorem open_is_terminal {V : Type} (c : circuitBreaker)
    (f : Nat → Outcome V) (k r : Nat) (h : c.state = State.Open) :
    (Execute c f k).cb = c ∧
    recover c f k = (c, k) ∧
    recoverLoop c.strategy.RetryMax f c.state k r = (c.state, k) := by
  obtain ⟨nm, s, st, e⟩ := c
  simp only at h
  subst h
  refine ⟨by simp [Execute], ?_, ?_⟩
  · rw [recover, recoverLoop]
    simp
  · rw [recoverLoop]
    simp

/-- Witness for C9 at a concrete open breaker. -/
theorem open_is_terminal_witness :
    (Execute openCB failOp 2).cb = openCB ∧
    recover openCB failOp 2 = (openCB, 2) ∧
    recoverLoop openCB.strategy.RetryMax failOp openCB.state 2 7 =
      (openCB.state, 2) :=
  open_is_terminal openCB failOp 2 7 rfl

/-- Helper: with an always-failing operation, the probe loop entered at
`retries = r` runs `n` further iterations (one operation invocation each)
and then opens the circuit, where `(retryMax + 1).toNat = r + n`. -/
theorem recoverLoop_all_fail {V : Type} (retryMax : Int)
    (f : Nat → Outcome V) (hf : ∀ j, (f j).err ≠ none) :
    ∀ (n r k : Nat), (retryMax + 1).toNat = r + n → 0 ≤ retryMax →
      recoverLoop retryMax f State.HalfOpen k r = (State.Open, k + n) := by
  intro n
  induction n with
  | zero =>
    intro r k hr hmax
    rw [recoverLoop]
    have hgt : (r : Int) > retryMax := by omega
    simp [hgt]
  | succ n ih =>
    intro r k hr hmax
    rw [recoverLoop]
    have hgt : ¬ (r : Int) > retryMax := by omega
    have hfe : ¬ (f k).err = none := hf k
    simp only [hgt, hfe, if_true, if_false, ite_false, ite_true, reduceIte]
    rw [ih (r + 1) (k + 1) (by omega) hmax, Prod.mk.injEq]
    exact ⟨rfl, by omega⟩

/-- Helper: a probe invocation returning no error, reached while
`retries ≤ retryMax`, closes the circuit and the loop stops after that
single invocation. -/
theorem recoverLoop_success {V : Type} (retryMax : Int)
    (f : Nat → Outcome V) (r k : Nat) (hr : ¬ (r : Int) > retryMax)
    (hs : (f k).err = none) :
    recoverLoop retryMax f State.HalfOpen k r = (State.Closed, k + 1) := by
  rw [recoverLoop]
  simp only [hr, hs, if_true, if_false, ite_false, ite_true, reduceIte]
  rw [recoverLoop]
  simp

/-- Claim C6: the recovery probe, run sequentially from `HalfOpen`,
follows the spec loop.  (i) With an operation that fails on every probe
invocation, `recover` invokes it exactly `retryMax + 1` times and then
sets the state to `Open` and terminates.  (ii) A probe invocation that
returns no error (reached with `retries ≤ retryMax`) sets the state to
`Closed`, and the loop terminates right after that single invocation. -/
theorem recovery_probe_exhaustion_and_success {V : Type}
    (c : circuitBreaker) (f g : Nat → Outcome V) (k r j : Nat)
    (hHalf : c.state = State.HalfOpen) (hmax : 0 ≤ c.strategy.RetryMax)
    (hf : ∀ i, (f i).err ≠ none)
    (hr : ¬ (r : Int) > c.strategy.RetryMax) (hg : (g j).err = none) :
    recover c f k =
      ({ c with state := State.Open },
        k + (c.strategy.RetryMax + 1).toNat) ∧
    recoverLoop c.strategy.RetryMax g State.HalfOpen j r =
      (State.Closed, j + 1) := by
  constructor
  · rw [recover, hHalf,
      recoverLoop_all_fail c.strategy.RetryMax f hf
        (c.strategy.RetryMax + 1).toNat 0 k (by omega) hmax]
  · exact recoverLoop_success c.strategy.RetryMax g r j hr hg

/-- Witness for C6: a half-open breaker with `retryMax = 5` probes an
always-failing operation 6 times and opens; a succeeding probe invocation
closes it after one invocation. -/
theorem recovery_probe_exhaustion_and_success_witness :
    recover halfOpenCB failOp 0 =
      ({ halfOpenCB with state := State.Open },
        0 + (halfOpenCB.strategy.RetryMax + 1).toNat) ∧
    recoverLoop halfOpenCB.strategy.RetryMax succOp State.HalfOpen 2 0 =
      (State.Closed, 2 + 1) :=
  recovery_probe_exhaustion_and_success halfOpenCB failOp succOp 0 0 2 rfl
    (by decide) (fun i => by simp [failOp]) (by decide) rfl

/-- Helper: a fresh breaker starts `Closed`. -/
theorem newCB_state (name : String) (s : Strategy) :
    (NewCircuitBreaker name s).state = State.Closed := rfl

/-- Helper: a fresh breaker starts with `consecutiveErrors = 0`. -/
theorem newCB_errors (name : String) (s : Strategy) :
    (NewCircuitBreaker name s).consecutiveErrors = 0 := rfl

/-- Helper: from a `Closed` breaker, `n` failing calls that do not push
`consecutiveErrors` past the threshold leave the breaker `Closed`, add
`n` to the counter, and invoke the operation once per call. -/
theorem runCalls_closed_failures {V : Type} (f : Nat → Outcome V)
    (hf : ∀ j, (f j).err ≠ none) :
    ∀ (n : Nat) (c : circuitBreaker) (k : Nat), c.state = State.Closed →
      c.consecutiveErrors + n ≤ c.strategy.Threshold →
      runCalls c f k n =
        ({ c with consecutiveErrors := c.consecutiveErrors + n }, k + n) := by
  intro n
  induction n with
  | zero =>
    intro c k hc _
    obtain ⟨nm, s, st, e⟩ := c
    simp [runCalls]
  | succ n ih =>
    intro c k hc hle
    obtain ⟨nm, s, st, e⟩ := c
    simp only at hc hle
    subst hc
    rw [runCalls]
    have hfe : ¬ (f k).err = none := hf k
    have hnotgt : ¬ e + 1 > s.Threshold := by
      push_cast at hle
      omega
    simp only [Execute, handleError, hfe, hnotgt, not_false_eq_true, ne_eq,
      if_true, if_false, ite_false, ite_true, reduceIte]
    rw [ih (circuitBreaker.mk nm s State.Closed (e + 1)) (k + 1) rfl
      (by push_cast at hle ⊢; omega)]
    simp only [Prod.mk.injEq, circuitBreaker.mk.injEq, true_and]
    refine ⟨by push_cast; omega, by omega⟩

/-- Helper: one failing `Execute` call in state `Closed` with the counter
already at the threshold: the state flips to `HalfOpen`, the probe is
spawned, and the operation error is returned. -/
theorem execute_at_threshold {V : Type} (c : circuitBreaker)
    (f : Nat → Outcome V) (k : Nat) (hc : c.state = State.Closed)
    (hfk : (f k).err ≠ none)
    (hgt : c.consecutiveErrors + 1 > c.strategy.Threshold) :
    (Execute c f k).cb.state = State.HalfOpen ∧
    (Execute c f k).err = (f k).err ∧
    (Execute c f k).probeStarted = true ∧
    (Execute c f k).calls = k + 1 := by
  simp only [Execute, handleError, hc, hfk, ne_eq, not_false_eq_true,
    if_true, ite_true, reduceIte]
  simp [hgt]

/-- Helper: any `Execute` call made in state `HalfOpen` returns the
recovering sentinel error. -/
theorem execute_halfOpen_err {V : Type} (c : circuitBreaker)
    (f : Nat → Outcome V) (k : Nat) (h : c.state = State.HalfOpen) :
    (Execute c f k).err = some "circuit half open. trying to recover" := by
  simp [Execute, h]

/-- Claim C2 (amended): for every freshly constructed breaker with
effective threshold `T` and every operation failing on each invocation,
the first `T` failing `Execute` calls (reaching breaker `c1`, invocation
counter `k1`) leave the state `Closed`; the `(T+1)`-th call moves the
state to `HalfOpen` and spawns the recovery probe, but returns the
underlying operation error (the error of invocation `T`), not the
`RecoveringError`; the `RecoveringError` is what the next call, made in
state `HalfOpen`, returns. -/
theorem threshold_transition_returns_operation_error {V : Type}
    (name : String) (s : Strategy) (T : Nat) (f : Nat → Outcome V)
    (c1 : circuitBreaker) (k1 : Nat)
    (hf : ∀ j, (f j).err ≠ none)
    (hT : (NewCircuitBreaker name s).strategy.Threshold = (T : Int))
    (h1 : runCalls (NewCircuitBreaker name s) f 0 T = (c1, k1)) :
    c1.state = State.Closed ∧
    (Execute c1 f k1).cb.state = State.HalfOpen ∧
    (Execute c1 f k1).err = (f T).err ∧
    (Execute c1 f k1).probeStarted = true ∧
    (Execute (Execute c1 f k1).cb f (Execute c1 f k1).calls).err =
      some "circuit half open. trying to recover" := by
  have hrun := runCalls_closed_failures f hf T (NewCircuitBreaker name s) 0
    (newCB_state name s) (by rw [newCB_errors, hT]; omega)
  rw [h1, newCB_errors] at hrun
  simp only [zero_add] at hrun
  injection hrun with hc1 hk1
  rw [hk1]
  have hstate : c1.state = State.Closed := by
    rw [hc1]
    exact newCB_state name s
  have herr : c1.consecutiveErrors = (T : Int) := by
    rw [hc1]
  have hthr : c1.strategy.Threshold = (T : Int) := by
    rw [hc1]
    exact hT
  have hstep := execute_at_threshold c1 f T hstate (hf T)
    (by rw [herr, hthr]; omega)
  exact ⟨hstate, hstep.1, hstep.2.1, hstep.2.2.1,
    execute_halfOpen_err _ f _ hstep.1⟩

/-- Witness for C2 (amended) at threshold 1 with the always-failing
operation. -/
theorem threshold_transition_returns_operation_error_witness :
    cbAfterOneFailure.state = State.Closed ∧
    (Execute cbAfterOneFailure failOp 1).cb.state = State.HalfOpen ∧
    (Execute cbAfterOneFailure failOp 1).err = (failOp 1).err ∧
    (Execute cbAfterOneFailure failOp 1).probeStarted = true ∧
    (Execute (Execute cbAfterOneFailure failOp 1).cb failOp
        (Execute cbAfterOneFailure failOp 1).calls).err =
      some "circuit half open. trying to recover" :=
  threshold_transition_returns_operation_error "test"
    { Threshold := 1, RetryInterval := 1, RetryMax := 1 } 1 failOp
    cbAfterOneFailure 1 (fun j => by simp [failOp]) rfl rfl

/-- Helper: `runBounded` is stable under taking prefixes of the trace. -/
theorem runBounded_take (T : Nat) :
    ∀ (l : List Bool) (cur n : Nat), runBounded T cur l = true →
      runBounded T cur (l.take n) = true := by
  intro l
  induction l with
  | nil => simp
  | cons b l ih =>
    intro cur n hb
    cases n with
    | zero => simp [runBounded]
    | succ n =>
      rw [List.take_succ_cons]
      rw [runBounded] at hb ⊢
      cases b with
      | false => exact ih 0 n hb
      | true =>
        simp only [if_true, Bool.and_eq_true, ite_true, reduceIte] at hb ⊢
        exact ⟨hb.1, ih (cur + 1) n hb.2⟩

/-- Helper: from a `Closed` breaker whose counter matches the current
failure run, a trace whose failure runs never exceed the threshold keeps
the breaker `Closed`. -/
theorem runOps_closed {V : Type} (T : Nat) :
    ∀ (ops : List (Nat → Outcome V)) (c : circuitBreaker) (cur : Nat),
      c.state = State.Closed → c.strategy.Threshold = (T : Int) →
      c.consecutiveErrors = (cur : Int) →
      runBounded T cur (ops.map fun f => (f 0).err.isSome) = true →
      (runOps c ops).state = State.Closed := by
  intro ops
  induction ops with
  | nil =>
    intro c cur hc _ _ _
    simpa [runOps] using hc
  | cons f rest ih =>
    intro c cur hc hT he hb
    obtain ⟨nm, s, st, e⟩ := c
    simp only at hc hT he
    subst hc
    subst he
    rw [List.map_cons, runBounded] at hb
    rw [runOps]
    by_cases hfe : (f 0).err = none
    · simp only [hfe, Option.isSome_none, if_false, ite_false, reduceIte] at hb
      have hcb : (Execute (circuitBreaker.mk nm s State.Closed (cur : Int)) f 0).cb =
          circuitBreaker.mk nm s State.Closed 0 := by
        simp [Execute, handleSuccess, hfe]
      rw [hcb]
      exact ih (circuitBreaker.mk nm s State.Closed 0) 0 rfl hT rfl hb
    · have hsome : ((f 0).err.isSome : Bool) = true := by
        cases h : (f 0).err with
        | none => exact absurd h hfe
        | some v => simp
      simp only [hsome, if_true, Bool.and_eq_true, decide_eq_true_eq,
        ite_true, reduceIte] at hb
      have hnotgt : ¬ (cur : Int) + 1 > s.Threshold := by
        have h1 := hb.1
        rw [hT]
        omega
      have hcb : (Execute (circuitBreaker.mk nm s State.Closed (cur : Int)) f 0).cb =
          circuitBreaker.mk nm s State.Closed ((cur : Int) + 1) := by
        simp [Execute, handleError, hfe, hnotgt]
      rw [hcb]
      exact ih (circuitBreaker.mk nm s State.Closed ((cur : Int) + 1))
        (cur + 1) rfl hT (by push_cast; ring) hb.2

/-- Claim C7: from a fresh breaker with effective threshold `T`, any
sequence of `Execute` calls whose trace of operation failures contains no
unbroken run of `T + 1` consecutive failures leaves the state `Closed`
at every point of the sequence (each successful call resets the
counter to 0, each failing run of length `≤ T` never exceeds the
threshold). -/
theorem bounded_failure_runs_stay_closed {V : Type} (name : String)
    (s : Strategy) (T : Nat) (ops : List (Nat → Outcome V)) (n : Nat)
    (hT : (NewCircuitBreaker name s).strategy.Threshold = (T : Int))
    (hb : runBounded T 0 (ops.map fun f => (f 0).err.isSome) = true) :
    (runOps (NewCircuitBreaker name s) (ops.take n)).state =
      State.Closed := by
  apply runOps_closed T (ops.take n) (NewCircuitBreaker name s) 0
    (newCB_state name s) hT (newCB_errors name s)
  rw [List.map_take]
  exact runBounded_take T _ 0 n hb

/-- Witness for C7: threshold 2, trace fail/fail/success/fail/fail (runs
of length 2 only), all five prefixes stay `Closed` — checked at the full
trace. -/
theorem bounded_failure_runs_stay_closed_witness :
    (runOps cbT2 ([failOp, failOp, succOp, failOp, failOp].take 5)).state =
      State.Closed :=
  bounded_failure_runs_stay_closed "test"
    { Threshold := 2, RetryInterval := 1, RetryMax := 5 } 2
    [failOp, failOp, succOp, failOp, failOp] 5 rfl rfl

end GoCircuitBreaker
